import Mathlib

/-!
# Video-user-backend: a shallow embedding of the account and session-token code

The development follows the JavaScript sources

* `src/utils/cloudinary.js` (`cloudinaryUploader`, `extractPublicIdFromUrl`),
* `src/middlewares/auth.middleware.js` (`verifyJWT`),
* `src/controllers/user.controller.js` (`generateAccessAndRefreshTokens`,
  `registerUser`, `loginUser`, `logoutUser`, `refreshAccessToken`).

A handler is a function from the credential store and the request to the outcome
(a response, or the exception that leaves the handler) and the store afterwards.
JavaScript strings are Lean strings, `undefined` is `none`.
-/

set_option autoImplicit false

namespace VideoUserBackend

/-! ## JavaScript strings -/

/-- Truthiness of a possibly undefined string: `undefined` and `''` are falsy. -/
def truthy : Option String → Bool
  | none => false
  | some s => decide (s ≠ "")

/-- The expression `a || b` on possibly undefined strings. -/
def jsOr (a b : Option String) : Option String :=
  if truthy a then a else b

/-- The white space and line terminator characters removed by `String.prototype.trim`. -/
def isTrimmable (c : Char) : Bool :=
  let n := c.toNat
  n = 0x09 || n = 0x0A || n = 0x0B || n = 0x0C || n = 0x0D || n = 0x20 || n = 0xA0 ||
  n = 0x1680 || (0x2000 ≤ n && n ≤ 0x200A) || n = 0x2028 || n = 0x2029 || n = 0x202F ||
  n = 0x205F || n = 0x3000 || n = 0xFEFF

/-- The test `field.trim() === ''`: the trimmed string is empty exactly when every
character is trimmable. -/
def trimIsEmpty (s : String) : Bool :=
  s.data.all isTrimmable

/-- Lower case of the ASCII letters; the examples use it on ASCII strings, where it is
what `toLowerCase` returns. -/
def asciiLowerCase (s : String) : String :=
  String.mk (s.data.map Char.toLower)

/-- The call `s.split(sep)` for a one-character separator. -/
def split (sep : Char) : List Char → List (List Char)
  | [] => [[]]
  | c :: cs =>
    if c = sep then [] :: split sep cs
    else
      match split sep cs with
      | [] => [[c]]
      | p :: ps => (c :: p) :: ps

/-- The call `parts.join(sep)` for a one-character separator. -/
def join (sep : Char) : List (List Char) → List Char
  | [] => []
  | [p] => p
  | p :: q :: ps => p ++ sep :: join sep (q :: ps)

/-- The scan of `Array.prototype.indexOf` from position `i`; `-1` when absent. -/
def indexOfFrom (x : List Char) : List (List Char) → Nat → Int
  | [], _ => -1
  | p :: ps, i => if p = x then (i : Int) else indexOfFrom x ps (i + 1)

/-- The call `parts.indexOf(x)`. -/
def indexOf (parts : List (List Char)) (x : List Char) : Int :=
  indexOfFrom x parts 0

/-- The call `parts.slice(start)` for a start that is not negative. -/
def slice (parts : List (List Char)) (start : Int) : List (List Char) :=
  parts.drop start.toNat

/-! ## `src/utils/cloudinary.js` -/

/-- The call `s.replace(/^v\d+\//, '')`: a leading `v`, the longest run of digits,
which must not be empty, and a `/` are removed; otherwise the string is returned as
it is. -/
def removeVersion : List Char → List Char
  | [] => []
  | c :: rest =>
    if c = 'v' then
      match rest.takeWhile Char.isDigit, rest.dropWhile Char.isDigit with
      | _ :: _, d :: tail => if d = '/' then tail else c :: rest
      | _, _ => c :: rest
    else c :: rest

/-- The suffix matched by `[^/.]+$`: not empty, without `/` and without `.`. -/
def isExtensionTail (t : List Char) : Bool :=
  !t.isEmpty && t.all (fun c => c != '/' && c != '.')

/-- The call `s.replace(/\.[^/.]+$/, '')`: the scan looks from the left for the first
`.` that is followed, up to the end of the string, by an extension tail, and removes
the `.` and the tail. -/
def removeExtension : List Char → List Char
  | [] => []
  | c :: t => if c = '.' && isExtensionTail t then [] else c :: removeExtension t

/-- The function `extractPublicIdFromUrl`; `null` is `none`. -/
def extractPublicIdFromUrl (url : String) : Option String :=
  if url = "" then none
  else
    let urlParts := split '/' url.data
    let uploadIndex := indexOf urlParts "upload".data
    if uploadIndex = -1 then none
    else
      let pathAfterUpload := join '/' (slice urlParts (uploadIndex + 1))
      let withoutVersion := removeVersion pathAfterUpload
      let publicId := removeExtension withoutVersion
      some (String.mk publicId)

/-- The documented format
`https://res.cloudinary.com/cloud_name/image/upload/v1234567890/public_id.extension`. -/
def cloudinaryUrl (cloudName digits publicId extension : String) : String :=
  "https://res.cloudinary.com/" ++ cloudName ++ "/image/upload/v" ++ digits ++ "/" ++
    publicId ++ "." ++ extension

/-! ## The credential store

The user schema (`src/models/user.model.js`), the helpers `APIerror`, `APIresponse`,
`asyncHandler` and the application set-up are not part of the source tree. The record
below has the fields the controllers read and write. The methods of the schema and
the libraries the handlers call are the fields of `Env`. -/

/-- A MongoDB object id. -/
abbrev ObjectId := Nat

/-- Modelled from the spec: the user schema `src/models/user.model.js` is not in the
source tree; the fields are those of the data model (identity, profile fields, media
references, watched content, password hash, current refresh token) under the names
the controllers use. -/
structure User where
  _id : ObjectId
  username : String
  email : String
  fullName : String
  lastName : String
  avatar : String
  coverImage : String
  watchHistory : List ObjectId
  password : String
  refreshToken : Option String
  deriving DecidableEq, Repr

/-- A user document after `.select('-password -refreshToken')`. -/
structure SafeUser where
  _id : ObjectId
  username : String
  email : String
  fullName : String
  lastName : String
  avatar : String
  coverImage : String
  watchHistory : List ObjectId
  deriving DecidableEq, Repr

/-- The projection `.select('-password -refreshToken')`. -/
def select (u : User) : SafeUser :=
  { _id := u._id, username := u.username, email := u.email, fullName := u.fullName,
    lastName := u.lastName, avatar := u.avatar, coverImage := u.coverImage,
    watchHistory := u.watchHistory }

/-- The users collection, in insertion order. -/
abbrev Store := List User

/-- The query `User.findById(id)`; `null` is `none`. -/
def findById (s : Store) (id : ObjectId) : Option User :=
  s.find? (fun u => decide (u._id = id))

/-- An update of the first document with the given id (`save` on a loaded document,
`findByIdAndUpdate`). -/
def updateOne (f : User → User) (id : ObjectId) : Store → Store
  | [] => []
  | u :: rest => if u._id = id then f u :: rest else u :: updateOne f id rest

/-- The assignment `user.refreshToken = value` on a loaded document. -/
def setRefreshToken (value : Option String) (d : User) : User :=
  { d with refreshToken := value }

/-- The update `{ $set: { refreshToken: value } }` of `findByIdAndUpdate`: the database
layer removes a key whose value is undefined from an update before it sends it, so with
an undefined value nothing is assigned and the document keeps its field; a defined
value is assigned. -/
def setRefreshTokenUpdate (value : Option String) (d : User) : User :=
  match value with
  | none => d
  | some v => setRefreshToken (some v) d

/-- A fresh object id. -/
def newObjectId (s : Store) : ObjectId :=
  (s.map (fun u => u._id)).foldr max 0 + 1

/-! ## Exceptions, requests, responses -/

/-- What a handler throws. -/
inductive Thrown where
  | APIerror (statusCode : Nat) (message : String)
  | TypeError (message : String)
  | Error (message : String)
  deriving DecidableEq, Repr

/-- The property `error.message`. -/
def Thrown.message : Thrown → String
  | .APIerror _ m => m
  | .TypeError m => m
  | .Error m => m

/-- The expression `error?.message || fallback`. -/
def messageOr (e : Thrown) (fallback : String) : String :=
  if e.message = "" then fallback else e.message

/-- The payload of a verified token. -/
structure JwtPayload where
  _id : ObjectId
  deriving DecidableEq, Repr

/-- The response of the media host to an upload. -/
structure UploadApiResponse where
  url : String
  deriving DecidableEq, Repr

/-- The configuration, the schema methods, the libraries and the built-in string
method the handlers call.
`jwtVerify token secret` is `jwt.verify`: the payload when the signature is valid
under the secret and the token has not expired, the message of the thrown error
otherwise. `upload` is `cloudinary.uploader.upload`, `none` when it throws.
`toLowerCase` is `String.prototype.toLowerCase`.
`uniqueIndexes` says whether the collection rejects an insert that repeats an email
or a username. -/
structure Env where
  ACCESS_TOKEN_SECRET : String
  REFRESH_TOKEN_SECRET : String
  jwtVerify : String → String → Except String JwtPayload
  generateAccessToken : User → String
  generateRefreshToken : User → String
  isPasswordCorrect : User → Option String → Except String Bool
  hashPassword : String → String
  upload : String → Option UploadApiResponse
  toLowerCase : String → String
  uniqueIndexes : Bool

/-- Modelled from the spec: the user schema `src/models/user.model.js` is not in the
source tree. The data model has a case-normalized username, so the schema casts the
`username` value of a query filter to lower case before the query is sent; an
undefined value stays undefined. -/
def castUsername (env : Env) (username : Option String) : Option String :=
  username.map env.toLowerCase

/-- The query `User.findOne({ $or: [{ email }, { username }] })`, the filter cast by
the schema; an undefined value matches no document, as both fields are set on every
document. -/
def findOneByEmailOrUsername (env : Env) (s : Store) (email username : Option String) :
    Option User :=
  s.find? (fun u =>
    decide (some u.email = email) || decide (some u.username = castUsername env username))

/-- The cookies of a request, as parsed by `cookie-parser`. -/
structure Cookies where
  accessToken : Option String
  refreshToken : Option String
  deriving DecidableEq, Repr

/-- The fields of the request body the handlers read. -/
structure Body where
  fullName : Option String
  username : Option String
  lastName : Option String
  email : Option String
  password : Option String
  refreshToken : Option String
  deriving DecidableEq, Repr

/-- A file stored by the upload middleware. -/
structure UploadedFile where
  path : String
  deriving DecidableEq, Repr

/-- The object `req.files` of `upload.fields`: a key is present when at least one file
was sent under that name. -/
structure Files where
  avatar : Option (List UploadedFile)
  coverImage : Option (List UploadedFile)
  deriving DecidableEq, Repr

/-- A request. `headers` is the header object (never a function), `user` is what
`verifyJWT` attaches. -/
structure Request where
  cookies : Cookies
  headers : Option (List (String × String))
  body : Body
  files : Option Files
  user : Option SafeUser
  deriving DecidableEq, Repr

/-- The `data` member of the response envelope. -/
inductive Data where
  | empty
  | user (user : SafeUser)
  | login (user : SafeUser) (accessToken refreshToken : String)
  | tokens (accessToken newRefreshToken : Option String)
  deriving DecidableEq, Repr

/-- A response: the status, the cookies set with `res.cookie` in order, the cookies
cleared with `res.clearCookie`, and the envelope. -/
structure Response where
  statusCode : Nat
  cookies : List (String × Option String)
  clearedCookies : List String
  data : Data
  message : String
  deriving DecidableEq, Repr

/-- The value last set for a cookie, if the cookie was set. -/
def Response.cookie (r : Response) (name : String) : Option (Option String) :=
  (r.cookies.reverse.find? (fun c => decide (c.1 = name))).map (fun c => c.2)

/-- The outcome of a handler and the store it leaves. -/
abbrev Result := Except Thrown Response × Store

/-- The status code of the `APIerror` a handler threw, if it threw one. -/
def errorStatus : Except Thrown Response → Option Nat
  | .error (.APIerror code _) => some code
  | _ => none

/-! ## `cloudinaryUploader` -/

/-- The function `cloudinaryUploader`: `null` for a falsy path and when the upload
throws, the response of the media host otherwise. -/
def cloudinaryUploader (env : Env) (localFilePath : Option String) :
    Option UploadApiResponse :=
  match localFilePath with
  | none => none
  | some path => if path = "" then none else env.upload path

/-! ## `src/middlewares/auth.middleware.js` -/

/-- The expression `req.cookies?.accessToken || req.headers?.('Authorization')?.replace('Bearer', '')`.
The right operand is evaluated only when the cookie is falsy. It is an optional call of
`req.headers`: undefined when `req.headers` is undefined, and a `TypeError` when it is
the header object, which is not a function. -/
def bearerToken (req : Request) : Except Thrown (Option String) :=
  if truthy req.cookies.accessToken then .ok req.cookies.accessToken
  else
    match req.headers with
    | none => .ok none
    | some _ => .error (.TypeError "req.headers is not a function")

/-- The body of the `try` block of `verifyJWT`. -/
def verifyJWTTry (env : Env) (s : Store) (req : Request) : Except Thrown Request :=
  match bearerToken req with
  | .error e => .error e
  | .ok none => .error (.APIerror 401 "Unauthorized access")
  | .ok (some token) =>
    if token = "" then .error (.APIerror 401 "Unauthorized access")
    else
      match env.jwtVerify token env.ACCESS_TOKEN_SECRET with
      | .error m => .error (.Error m)
      | .ok decodedToken =>
        match findById s decodedToken._id with
        | none => .error (.APIerror 404 "User not found")
        | some user => .ok { req with user := some (select user) }

/-- The middleware `verifyJWT`: the request handed to `next()` with `req.user` set, or
the thrown error. Whatever the `try` block throws is caught and thrown again as an
`APIerror` with status 401. -/
def verifyJWT (env : Env) (s : Store) (req : Request) : Except Thrown Request :=
  match verifyJWTTry env s req with
  | .ok r => .ok r
  | .error e => .error (.APIerror 401 (messageOr e "Invalid or expired token"))

/-! ## `src/controllers/user.controller.js` -/

/-- The object `{ accessToken, refreshToken }` returned by
`generateAccessAndRefreshTokens`. -/
structure TokenPair where
  accessToken : String
  refreshToken : String
  deriving DecidableEq, Repr

/-- The property read by a destructuring pattern: undefined for a key that the object
does not have. -/
def TokenPair.prop (p : TokenPair) (key : String) : Option String :=
  if key = "accessToken" then some p.accessToken
  else if key = "refreshToken" then some p.refreshToken
  else none

/-- The function `generateAccessAndRefreshTokens`. When no user has the id, the method
call on `null` throws inside the `try` block, and the `catch` throws the `APIerror`
with status 500. -/
def generateAccessAndRefreshTokens (env : Env) (s : Store) (userId : ObjectId) :
    Except Thrown TokenPair × Store :=
  match findById s userId with
  | none => (.error (.APIerror 500 "Token generation failed"), s)
  | some user =>
    let accessToken := env.generateAccessToken user
    let refreshToken := env.generateRefreshToken user
    let s1 := updateOne (setRefreshToken (some refreshToken)) user._id s
    (.ok { accessToken := accessToken, refreshToken := refreshToken }, s1)

/-- The callback of `.some(field => field.trim() === '')`, applied from left to right:
the scan stops at the first blank field, and `trim` on an undefined field throws. -/
def someFieldBlank : List (Option String) → Except Thrown Bool
  | [] => .ok false
  | none :: _ => .error (.TypeError "Cannot read properties of undefined (reading trim)")
  | some field :: rest => if trimIsEmpty field then .ok true else someFieldBlank rest

/-- The expression `req.files?.avatar[0]?.path`: undefined without `req.files`, a
`TypeError` when `req.files` has no `avatar` key. -/
def avatarPath (files : Option Files) : Except Thrown (Option String) :=
  match files with
  | none => .ok none
  | some fs =>
    match fs.avatar with
    | none => .error (.TypeError "Cannot read properties of undefined (reading 0)")
    | some arr => .ok (arr.head?.map (fun f => f.path))

/-- The expression `req.files?.coverImage?.[0]?.path`. -/
def coverImagePath (files : Option Files) : Option String :=
  match files with
  | none => none
  | some fs =>
    match fs.coverImage with
    | none => none
    | some arr => arr.head?.map (fun f => f.path)

/-- The call `User.create(doc)`: the document is inserted with a fresh id and without a
refresh token; the password is hashed on save; the username passed by `registerUser`
is in lower case already, and the case normalization of the schema leaves it as it is.
With unique indexes, an insert that repeats an email or a username is rejected by the
database. -/
def create (env : Env) (s : Store)
    (fullName lastName avatar coverImage email password username : String) :
    Except Thrown User × Store :=
  let user : User :=
    { _id := newObjectId s, username := username, email := email, fullName := fullName,
      lastName := lastName, avatar := avatar, coverImage := coverImage,
      watchHistory := [], password := env.hashPassword password, refreshToken := none }
  if env.uniqueIndexes && s.any (fun u => decide (u.email = email) || decide (u.username = username))
  then (.error (.Error "E11000 duplicate key error"), s)
  else (.ok user, s ++ [user])

/-- The handler `registerUser`. The last branch of the match on the five fields is
not reached: the validation has thrown for an undefined field. -/
def registerUser (env : Env) (s : Store) (req : Request) : Result :=
  let fullName := req.body.fullName
  let username := req.body.username
  let lastName := req.body.lastName
  let email := req.body.email
  let password := req.body.password
  match someFieldBlank [fullName, username, lastName, email, password] with
  | .error e => (.error e, s)
  | .ok true => (.error (.APIerror 400 "All fields are required"), s)
  | .ok false =>
    match findOneByEmailOrUsername env s email username with
    | some _ => (.error (.APIerror 409 "User already exists"), s)
    | none =>
      match avatarPath req.files with
      | .error e => (.error e, s)
      | .ok avatarLocalPath =>
        let coverImageLocalPath := coverImagePath req.files
        if !truthy avatarLocalPath then (.error (.APIerror 400 "Avatar is required"), s)
        else
          let avatar := cloudinaryUploader env avatarLocalPath
          let coverImage :=
            if truthy coverImageLocalPath then cloudinaryUploader env coverImageLocalPath
            else none
          match avatar with
          | none => (.error (.APIerror 400 "Avatar is required"), s)
          | some avatar =>
            match fullName, username, lastName, email, password with
            | some fullName, some username, some lastName, some email, some password =>
              match create env s fullName lastName avatar.url
                  ((coverImage.map (fun c => c.url)).getD "") email password
                  (env.toLowerCase username) with
              | (.error e, s1) => (.error e, s1)
              | (.ok user, s1) =>
                match findById s1 user._id with
                | none => (.error (.APIerror 500 "User creation failed"), s1)
                | some createdUser =>
                  (.ok { statusCode := 201, cookies := [], clearedCookies := [],
                         data := .user (select createdUser),
                         message := "User created successfully" }, s1)
            | _, _, _, _, _ =>
              (.error (.TypeError "Cannot read properties of undefined"), s)

/-- The handler `loginUser`. -/
def loginUser (env : Env) (s : Store) (req : Request) : Result :=
  let email := req.body.email
  let username := req.body.username
  let password := req.body.password
  if !truthy email && !truthy username then
    (.error (.APIerror 400 "username and Email are required"), s)
  else
    match findOneByEmailOrUsername env s email username with
    | none => (.error (.APIerror 404 "User does not exist"), s)
    | some user =>
      match env.isPasswordCorrect user password with
      | .error m => (.error (.Error m), s)
      | .ok false => (.error (.APIerror 401 "Invalid user credentials"), s)
      | .ok true =>
        match generateAccessAndRefreshTokens env s user._id with
        | (.error e, s1) => (.error e, s1)
        | (.ok pair, s1) =>
          match findById s1 user._id with
          | none => (.error (.APIerror 500 "Login failed"), s1)
          | some loggedInUser =>
            (.ok { statusCode := 200,
                   cookies := [("accessToken", pair.prop "accessToken"),
                               ("refreshToken", pair.prop "refreshToken")],
                   clearedCookies := [],
                   data := .login (select loggedInUser) pair.accessToken pair.refreshToken,
                   message := "User logged in successfully" }, s1)

/-- The handler `logoutUser`: the update `$set: { refreshToken: undefined }` on the
document of `req.user._id`, and both cookies cleared. -/
def logoutUser (s : Store) (req : Request) : Result :=
  match req.user with
  | none => (.error (.TypeError "Cannot read properties of undefined (reading _id)"), s)
  | some user =>
    let s1 := updateOne (setRefreshTokenUpdate none) user._id s
    (.ok { statusCode := 200, cookies := [],
           clearedCookies := ["accessToken", "refreshToken"],
           data := .empty, message := "User logged out successfully" }, s1)

/-- The body of the `try` block of `refreshAccessToken`, for the truthy incoming
token. The result of `generateAccessAndRefreshTokens` is destructured with the keys
`accessToken` and `newRefreshToken`. -/
def refreshAccessTokenTry (env : Env) (s : Store) (incomingRefreshToken : String) : Result :=
  match env.jwtVerify incomingRefreshToken env.REFRESH_TOKEN_SECRET with
  | .error m => (.error (.Error m), s)
  | .ok decodedToken =>
    match findById s decodedToken._id with
    | none => (.error (.APIerror 401 "Invalid or expired refresh token"), s)
    | some user =>
      if user.refreshToken ≠ some incomingRefreshToken then
        (.error (.APIerror 401 "Invalid or expired refresh token"), s)
      else
        match generateAccessAndRefreshTokens env s user._id with
        | (.error e, s1) => (.error e, s1)
        | (.ok pair, s1) =>
          let accessToken := pair.prop "accessToken"
          let newRefreshToken := pair.prop "newRefreshToken"
          (.ok { statusCode := 200,
                 cookies := [("accessToken", accessToken), ("refreshToken", newRefreshToken)],
                 clearedCookies := [],
                 data := .tokens accessToken newRefreshToken,
                 message := "Tokens refreshed successfully" }, s1)

/-- The token presented to `refreshAccessToken`:
`req.cookies.refreshToken || req.body.refreshToken`, when it is truthy. -/
def incomingRefreshToken (req : Request) : Option String :=
  match jsOr req.cookies.refreshToken req.body.refreshToken with
  | none => none
  | some t => if t = "" then none else some t

/-- The handler `refreshAccessToken`. Whatever the `try` block throws is caught and
thrown again as an `APIerror` with status 401. -/
def refreshAccessToken (env : Env) (s : Store) (req : Request) : Result :=
  match incomingRefreshToken req with
  | none => (.error (.APIerror 401 "Unauthorized access"), s)
  | some token =>
    match refreshAccessTokenTry env s token with
    | (.ok res, s1) => (.ok res, s1)
    | (.error e, s1) =>
      (.error (.APIerror 401 (messageOr e "Invalid or expired refresh token")), s1)

/-! ## The routes of `src/routes/user.routes.js` that write to the store -/

/-- A request to one of the routes whose handler creates a user document or assigns
the `refreshToken` field. -/
inductive Call where
  | register (req : Request)
  | login (req : Request)
  | logout (req : Request)
  | refreshToken (req : Request)

/-- The routing table: `/logout` runs `verifyJWT` before `logoutUser`. -/
def route (env : Env) (s : Store) : Call → Result
  | .register req => registerUser env s req
  | .login req => loginUser env s req
  | .logout req =>
    match verifyJWT env s req with
    | .error e => (.error e, s)
    | .ok authenticated => logoutUser s authenticated
  | .refreshToken req => refreshAccessToken env s req

/-- The store after a sequence of requests. -/
def run (env : Env) : Store → List Call → Store
  | s, [] => s
  | s, c :: cs => run env (route env s c).2 cs

/-- The call is a login that succeeds for the user with the given id. -/
def loginsUser (env : Env) (s : Store) (userId : ObjectId) : Call → Bool
  | .login req =>
    match (loginUser env s req).1 with
    | .ok res =>
      match res.data with
      | .login user _ _ => decide (user._id = userId)
      | _ => false
    | .error _ => false
  | _ => false

/-- No request of the sequence, run from the given store, logs the user in. -/
def noLoginOf (env : Env) (userId : ObjectId) : Store → List Call → Prop
  | _, [] => True
  | s, c :: cs => loginsUser env s userId c = false ∧ noLoginOf env userId (route env s c).2 cs

/-- The five required fields of a registration are present and none is blank after
trimming. -/
def requiredFieldsPresent (req : Request) : Bool :=
  [req.body.fullName, req.body.username, req.body.lastName, req.body.email,
    req.body.password].all
    (fun field => match field with
      | some v => !trimIsEmpty v
      | none => false)

/-- The email of the request, or its username in lower case, is the email or the
username of a user of the store. -/
def identityTaken (env : Env) (s : Store) (req : Request) : Prop :=
  ∃ u ∈ s, some u.email = req.body.email ∨
    some u.username = req.body.username.map env.toLowerCase

/-- No two documents share an email or a username. -/
def uniqueIdentities (s : Store) : Prop :=
  s.Pairwise (fun a b => a.email ≠ b.email ∧ a.username ≠ b.username)

/-- The user with the given id, if there is one, has no stored refresh token. -/
def loggedOut (userId : ObjectId) (s : Store) : Prop :=
  ∀ d, findById s userId = some d → d.refreshToken = none

/-! ## A concrete configuration -/

/-- A configuration for the examples. A refresh token is the name of its user after
`R.` followed by one `+` for each time it was issued; an access token is the name after
`A.`. The access token `A.ghost` is valid and names the id 9. -/
def demoEnv : Env :=
  { ACCESS_TOKEN_SECRET := "access-secret"
    REFRESH_TOKEN_SECRET := "refresh-secret"
    jwtVerify := fun token secret =>
      if secret = "access-secret" then
        if token = "A.alice" then .ok { _id := 1 }
        else if token = "A.bob" then .ok { _id := 2 }
        else if token = "A.ghost" then .ok { _id := 9 }
        else .error "invalid signature"
      else if secret = "refresh-secret" then
        if token.data.takeWhile (fun c => c != '+') = "R.alice".data then .ok { _id := 1 }
        else if token.data.takeWhile (fun c => c != '+') = "R.bob".data then .ok { _id := 2 }
        else .error "invalid signature"
      else .error "invalid signature"
    generateAccessToken := fun u => "A." ++ u.username
    generateRefreshToken := fun u => u.refreshToken.getD ("R." ++ u.username) ++ "+"
    isPasswordCorrect := fun u p => .ok (decide (p = some u.password))
    hashPassword := fun p => p
    upload := fun path => some { url := "https://res.cloudinary.com/demo/image/upload/v1/" ++ path }
    toLowerCase := asciiLowerCase
    uniqueIndexes := false }

/-- The user alice, logged in with the refresh token `R.alice+`. -/
def alice : User :=
  { _id := 1, username := "alice", email := "alice@example.com", fullName := "Alice",
    lastName := "Liddell", avatar := "https://res.cloudinary.com/demo/image/upload/v1/a.png",
    coverImage := "", watchHistory := [], password := "wonderland",
    refreshToken := some "R.alice+" }

/-- The user bob, logged out. -/
def bob : User :=
  { _id := 2, username := "bob", email := "bob@example.com", fullName := "Bob",
    lastName := "Builder", avatar := "https://res.cloudinary.com/demo/image/upload/v1/b.png",
    coverImage := "", watchHistory := [], password := "canwefixit",
    refreshToken := none }

/-- A store with alice and bob. -/
def demoStore : Store := [alice, bob]

/-- A request without cookies, headers, body fields or files. -/
def emptyRequest : Request :=
  { cookies := { accessToken := none, refreshToken := none }
    headers := some []
    body := { fullName := none, username := none, lastName := none, email := none,
              password := none, refreshToken := none }
    files := none
    user := none }

/-- A request with the given `refreshToken` cookie. -/
def refreshRequest (token : String) : Request :=
  { emptyRequest with cookies := { accessToken := none, refreshToken := some token } }

/-- A request with the given `accessToken` cookie. -/
def cookieRequest (token : String) : Request :=
  { emptyRequest with cookies := { accessToken := some token, refreshToken := none } }

/-- A request with the given `Authorization` header and no cookie. -/
def headerRequest (value : String) : Request :=
  { emptyRequest with headers := some [("authorization", value)] }

/-- A request with the given body fields and uploaded files. -/
def registerRequest (fullName username lastName email password : Option String)
    (files : Option Files) : Request :=
  { cookies := emptyRequest.cookies
    headers := emptyRequest.headers
    body := { fullName := fullName, username := username, lastName := lastName,
              email := email, password := password, refreshToken := none }
    files := files
    user := none }

/-- The files of a registration with an avatar. -/
def avatarOnly : Files :=
  { avatar := some [{ path := "public/temp/avatar.png" }], coverImage := none }

/-- The request that reaches `logoutUser` after `verifyJWT` has attached alice. -/
def aliceLogoutRequest : Request :=
  { cookieRequest "A.alice" with user := some (select alice) }

/-- A registration of carol, with an avatar. -/
def carolRegisterRequest : Request :=
  registerRequest (some "Carol") (some "carol") (some "Danvers") (some "carol@example.com")
    (some "higherfurtherfaster") (some avatarOnly)

/-- A registration under the username `Bob` and an email that is not taken. -/
def bobRegisterRequest : Request :=
  registerRequest (some "Bobby") (some "Bob") (some "Brown") (some "bobby@example.com")
    (some "secret") (some avatarOnly)

/-- A registration under the email of alice with an empty `fullName`. -/
def blankNameRequest : Request :=
  registerRequest (some "") (some "alicia") (some "Liddell") (some "alice@example.com")
    (some "lookingglass") (some avatarOnly)

/-! ## Lemmas on `split`, `join` and `indexOf` -/

theorem split_ne_nil (sep : Char) (s : List Char) : split sep s ≠ [] := by
  induction s with
  | nil => simp [split]
  | cons c cs ih =>
    unfold split
    split
    · simp
    · split <;> simp

theorem split_append_sep (sep : Char) (a b : List Char) :
    split sep (a ++ sep :: b) = split sep a ++ split sep b := by
  induction a with
  | nil => simp [split]
  | cons c cs ih =>
    by_cases hc : c = sep
    · subst hc
      simp [split, ih]
    · have hne := split_ne_nil sep cs
      rcases hs : split sep cs with _ | ⟨p, ps⟩
      · exact absurd hs hne
      · simp [split, hc, ih, hs]

theorem split_of_not_mem (sep : Char) (a : List Char) (h : sep ∉ a) :
    split sep a = [a] := by
  induction a with
  | nil => simp [split]
  | cons c cs ih =>
    have hc : c ≠ sep := fun e => h (by simp [e])
    have hcs : sep ∉ cs := fun e => h (by simp [e])
    simp [split, hc, ih hcs]

theorem join_cons_cons (sep c : Char) (p : List Char) (ps : List (List Char)) :
    join sep ((c :: p) :: ps) = c :: join sep (p :: ps) := by
  cases ps <;> simp [join]

theorem join_split (sep : Char) (s : List Char) : join sep (split sep s) = s := by
  induction s with
  | nil => simp [split, join]
  | cons c cs ih =>
    have hne := split_ne_nil sep cs
    rcases hs : split sep cs with _ | ⟨p, ps⟩
    · exact absurd hs hne
    · rw [hs] at ih
      by_cases hc : c = sep
      · subst hc
        simp [split, hs, join, ih]
      · simp [split, hc, hs, join_cons_cons, ih]

theorem indexOfFrom_of_not_mem (x : List Char) (xs : List (List Char)) (i : Nat)
    (h : x ∉ xs) : indexOfFrom x xs i = -1 := by
  induction xs generalizing i with
  | nil => simp [indexOfFrom]
  | cons p ps ih =>
    have hp : p ≠ x := fun e => h (by simp [e])
    have hps : x ∉ ps := fun e => h (by simp [e])
    simp [indexOfFrom, hp, ih _ hps]

theorem indexOfFrom_append (x : List Char) (xs ys : List (List Char)) (i : Nat)
    (h : x ∉ xs) : indexOfFrom x (xs ++ ys) i = indexOfFrom x ys (i + xs.length) := by
  induction xs generalizing i with
  | nil => simp
  | cons p ps ih =>
    have hp : p ≠ x := fun e => h (by simp [e])
    have hps : x ∉ ps := fun e => h (by simp [e])
    simp [indexOfFrom, hp, ih _ hps]
    congr 1
    omega

theorem removeExtension_append (publicId ext : List Char) (h0 : ext ≠ [])
    (h : ∀ c ∈ ext, c ≠ '/' ∧ c ≠ '.') :
    removeExtension (publicId ++ '.' :: ext) = publicId := by
  induction publicId with
  | nil =>
    have ht : isExtensionTail ext = true := by
      cases ext with
      | nil => exact absurd rfl h0
      | cons e es =>
        simp only [isExtensionTail, List.isEmpty_cons, Bool.not_false, Bool.true_and,
          List.all_eq_true, Bool.and_eq_true, bne_iff_ne]
        exact fun c hc => h c hc
    simp [removeExtension, ht]
  | cons c cs ih =>
    have ht : isExtensionTail (cs ++ '.' :: ext) = false := by
      simp [isExtensionTail]
    simp [removeExtension, ht, ih]

theorem removeVersion_append (digits rest : List Char) (h0 : digits ≠ [])
    (h : ∀ c ∈ digits, c.isDigit = true) :
    removeVersion ('v' :: (digits ++ '/' :: rest)) = rest := by
  have htake : (digits ++ '/' :: rest).takeWhile Char.isDigit = digits := by
    induction digits with
    | nil => exact absurd rfl h0
    | cons d ds ih =>
      have hd : d.isDigit = true := h d (by simp)
      cases ds with
      | nil =>
        have : Char.isDigit '/' = false := by decide
        simp [List.takeWhile, hd, this]
      | cons e es =>
        have := ih (by simp) (fun c hc => h c (by simp [List.mem_cons] at hc ⊢; tauto))
        simp only [List.cons_append] at this ⊢
        rw [List.takeWhile_cons, if_pos hd, this]
  have hdrop : (digits ++ '/' :: rest).dropWhile Char.isDigit = '/' :: rest := by
    clear htake h0
    induction digits with
    | nil =>
      have : Char.isDigit '/' = false := by decide
      simp [List.dropWhile, this]
    | cons d ds ih =>
      have hd : d.isDigit = true := h d (by simp)
      have := ih (fun c hc => h c (by simp [hc]))
      simp only [List.cons_append]
      rw [List.dropWhile_cons, if_pos hd, this]
  cases digits with
  | nil => exact absurd rfl h0
  | cons d ds =>
    simp only [removeVersion, if_true]
    rw [htake, hdrop]
    simp

/-! ## Lemmas on the store -/

theorem findById_id {s : Store} {id : ObjectId} {u : User} (h : findById s id = some u) :
    u._id = id := by
  have := List.find?_some h
  simpa using this

theorem findById_self {s : Store} {id : ObjectId} {u : User} (h : findById s id = some u) :
    findById s u._id = some u := by
  rw [findById_id h]; exact h

theorem findById_updateOne (f : User → User) (hf : ∀ d, (f d)._id = d._id)
    (id j : ObjectId) (s : Store) :
    findById (updateOne f id s) j =
      if j = id then (findById s id).map f else findById s j := by
  induction s with
  | nil => simp [findById, updateOne]
  | cons u rest ih =>
    unfold findById at ih ⊢
    by_cases hu : u._id = id
    · by_cases hj : j = id
      · subst hj
        simp [updateOne, hu, hf]
      · subst hu
        simp [updateOne, hj, hf, Ne.symm hj]
    · by_cases hj : j = id
      · subst hj
        simp [updateOne, hu, ih]
      · by_cases huj : u._id = j
        · simp [updateOne, hu, hj, huj]
        · simp [updateOne, hu, hj, huj, ih]

theorem updateOne_of_fixed (f : User → User) (hf : ∀ d, f d = d) (id : ObjectId)
    (s : Store) : updateOne f id s = s := by
  induction s with
  | nil => rfl
  | cons u rest ih =>
    by_cases hu : u._id = id <;> simp [updateOne, hu, hf, ih]

theorem length_updateOne (f : User → User) (id : ObjectId) (s : Store) :
    (updateOne f id s).length = s.length := by
  induction s with
  | nil => rfl
  | cons u rest ih =>
    by_cases hu : u._id = id <;> simp [updateOne, hu, ih]

theorem getElem?_updateOne_ne (f : User → User) (id : ObjectId) (s : Store) (i : Nat)
    (d : User) (h : s[i]? = some d) (hd : d._id ≠ id) : (updateOne f id s)[i]? = some d := by
  induction s generalizing i with
  | nil => simp at h
  | cons u rest ih =>
    cases i with
    | zero =>
      simp only [List.getElem?_cons_zero, Option.some.injEq] at h
      subst h
      simp [updateOne, hd]
    | succ k =>
      simp only [List.getElem?_cons_succ] at h
      by_cases hu : u._id = id
      · simp [updateOne, hu, h]
      · simp [updateOne, hu, ih k h]

theorem generateAccessAndRefreshTokens_eq (env : Env) (s : Store) (userId : ObjectId)
    (user : User) (h : findById s userId = some user) :
    generateAccessAndRefreshTokens env s userId =
      (.ok { accessToken := env.generateAccessToken user,
             refreshToken := env.generateRefreshToken user },
       updateOne (setRefreshToken (some (env.generateRefreshToken user))) userId s) := by
  simp [generateAccessAndRefreshTokens, h, findById_id h]

/-! ## `refreshAccessToken` -/

theorem refreshAccessTokenTry_ok (env : Env) (s : Store) (token : String)
    (payload : JwtPayload) (user : User)
    (hv : env.jwtVerify token env.REFRESH_TOKEN_SECRET = .ok payload)
    (hu : findById s payload._id = some user) (ht : user.refreshToken = some token) :
    ∃ res, (refreshAccessTokenTry env s token).1 = .ok res := by
  have hg := generateAccessAndRefreshTokens_eq env s user._id user (findById_self hu)
  simp [refreshAccessTokenTry, hv, hu, ht, hg]

theorem refreshAccessTokenTry_of_ok (env : Env) (s : Store) (token : String) (res : Response)
    (h : (refreshAccessTokenTry env s token).1 = .ok res) :
    ∃ payload user, env.jwtVerify token env.REFRESH_TOKEN_SECRET = .ok payload ∧
      findById s payload._id = some user ∧ user.refreshToken = some token := by
  unfold refreshAccessTokenTry at h
  split at h
  · simp at h
  · rename_i payload hv
    split at h
    · simp at h
    · rename_i user hu
      split at h
      · simp at h
      · rename_i ht
        exact ⟨payload, user, hv, hu, by simpa using ht⟩

theorem refreshAccessToken_error_status (env : Env) (s : Store) (req : Request)
    (h : ¬ ∃ res, (refreshAccessToken env s req).1 = .ok res) :
    errorStatus (refreshAccessToken env s req).1 = some 401 := by
  unfold refreshAccessToken at h ⊢
  rcases htok : incomingRefreshToken req with _ | token
  · rfl
  · rcases htry : refreshAccessTokenTry env s token with ⟨out, s1⟩
    simp only [htok, htry] at h ⊢
    cases out with
    | ok res => exact absurd ⟨res, rfl⟩ h
    | error e => rfl

theorem refreshAccessToken_ok_iff (env : Env) (s : Store) (req : Request) :
    (∃ res, (refreshAccessToken env s req).1 = .ok res) ↔
      ∃ token payload user, incomingRefreshToken req = some token ∧
        env.jwtVerify token env.REFRESH_TOKEN_SECRET = .ok payload ∧
        findById s payload._id = some user ∧ user.refreshToken = some token := by
  constructor
  · rintro ⟨res, hres⟩
    unfold refreshAccessToken at hres
    split at hres
    · simp at hres
    · rename_i token htok
      split at hres
      · rename_i res1 s1 htry
        obtain ⟨payload, user, hv, hu, ht⟩ :=
          refreshAccessTokenTry_of_ok env s token res1 (by rw [htry])
        exact ⟨token, payload, user, htok, hv, hu, ht⟩
      · simp at hres
  · rintro ⟨token, payload, user, htok, hv, hu, ht⟩
    obtain ⟨res, hres⟩ := refreshAccessTokenTry_ok env s token payload user hv hu ht
    refine ⟨res, ?_⟩
    unfold refreshAccessToken
    rcases htry : refreshAccessTokenTry env s token with ⟨out, s1⟩
    rw [htry] at hres
    simp only at hres
    subst hres
    simp only [htok, htry]

/-- C1. `refreshAccessToken` succeeds if and only if a token is presented that
`jwt.verify` accepts under the refresh secret and that is equal to the refresh token
stored on the user the token names; in every other case (no such user or a stored
value that is undefined included) it throws an `APIerror` with status 401. -/
theorem refreshAccessToken_succeeds_iff (env : Env) (s : Store) (req : Request) :
    ((∃ res, (refreshAccessToken env s req).1 = .ok res) ↔
      ∃ token payload user, incomingRefreshToken req = some token ∧
        env.jwtVerify token env.REFRESH_TOKEN_SECRET = .ok payload ∧
        findById s payload._id = some user ∧ user.refreshToken = some token) ∧
    ((¬ ∃ token payload user, incomingRefreshToken req = some token ∧
        env.jwtVerify token env.REFRESH_TOKEN_SECRET = .ok payload ∧
        findById s payload._id = some user ∧ user.refreshToken = some token) →
      errorStatus (refreshAccessToken env s req).1 = some 401) :=
  ⟨refreshAccessToken_ok_iff env s req, fun hno =>
    refreshAccessToken_error_status env s req
      (fun h => hno ((refreshAccessToken_ok_iff env s req).1 h))⟩

/-- C1, two instances: the token `R.alice+` is accepted while it is the stored value
of alice, and refused with status 401 once the store holds the rotated value
`R.alice++`, although its signature is still valid. -/
theorem refreshAccessToken_succeeds_iff_witness :
    (∃ res, (refreshAccessToken demoEnv demoStore (refreshRequest "R.alice+")).1 = .ok res) ∧
    errorStatus (refreshAccessToken demoEnv [{ alice with refreshToken := some "R.alice++" }, bob]
      (refreshRequest "R.alice+")).1 = some 401 :=
  ⟨(refreshAccessToken_succeeds_iff demoEnv demoStore (refreshRequest "R.alice+")).1.2
      ⟨"R.alice+", { _id := 1 }, alice, rfl, rfl, rfl, rfl⟩,
   (refreshAccessToken_succeeds_iff demoEnv [{ alice with refreshToken := some "R.alice++" }, bob]
    (refreshRequest "R.alice+")).2 (by
      rintro ⟨token, payload, user, htok, hv, hu, ht⟩
      have e : token = "R.alice+" := by
        have : incomingRefreshToken (refreshRequest "R.alice+") = some "R.alice+" := by decide
        rw [this] at htok
        exact (Option.some.inj htok).symm
      subst e
      have hp : payload = { _id := 1 } := by
        have : demoEnv.jwtVerify "R.alice+" demoEnv.REFRESH_TOKEN_SECRET = .ok { _id := 1 } := by
          rfl
        rw [this] at hv
        exact (Except.ok.inj hv).symm
      subst hp
      have hx : findById [{ alice with refreshToken := some "R.alice++" }, bob] 1
          = some { alice with refreshToken := some "R.alice++" } := by decide
      rw [hx] at hu
      have := Option.some.inj hu
      subst this
      revert ht
      decide)⟩

/-! ## `generateAccessAndRefreshTokens` -/

theorem getElem?_updateOne (f : User → User) (id : ObjectId) (s : Store) (i : Nat)
    (d : User) (h : s[i]? = some d) :
    (updateOne f id s)[i]? = some d ∨ (d._id = id ∧ (updateOne f id s)[i]? = some (f d)) := by
  induction s generalizing i with
  | nil => simp at h
  | cons u rest ih =>
    cases i with
    | zero =>
      simp only [List.getElem?_cons_zero, Option.some.injEq] at h
      subst h
      by_cases hu : u._id = id
      · right; simp [updateOne, hu]
      · left; simp [updateOne, hu]
    | succ k =>
      simp only [List.getElem?_cons_succ] at h
      by_cases hu : u._id = id
      · left; simp [updateOne, hu, h]
      · simpa [updateOne, hu] using ih k h

/-- C3. For the id of an existing user, `generateAccessAndRefreshTokens` succeeds; the
refresh token of the returned pair is the value stored afterwards on that user, whose
other fields are as before; the documents of the other users stay as they are, each at
its place, and every document keeps all its fields other than the refresh token. -/
theorem generateAccessAndRefreshTokens_frame (env : Env) (s : Store) (userId : ObjectId)
    (user : User) (h : findById s userId = some user) :
    ∃ pair s1, generateAccessAndRefreshTokens env s userId = (.ok pair, s1) ∧
      findById s1 userId = some { user with refreshToken := some pair.refreshToken } ∧
      (∀ id, id ≠ userId → findById s1 id = findById s id) ∧
      s1.length = s.length ∧
      (∀ (i : Nat) (d : User), s[i]? = some d → d._id ≠ userId → s1[i]? = some d) ∧
      (∀ (i : Nat) (d : User), s[i]? = some d →
        ∃ rt, s1[i]? = some { d with refreshToken := rt }) := by
  refine ⟨_, _, generateAccessAndRefreshTokens_eq env s userId user h, ?_, ?_, ?_, ?_, ?_⟩
  · rw [findById_updateOne (setRefreshToken _) (fun _ => rfl), if_pos rfl, h]
    rfl
  · intro id hid
    rw [findById_updateOne (setRefreshToken _) (fun _ => rfl), if_neg hid]
  · exact length_updateOne _ _ _
  · intro i d hd hne
    exact getElem?_updateOne_ne _ _ _ _ _ hd hne
  · intro i d hd
    rcases getElem?_updateOne (setRefreshToken (some (env.generateRefreshToken user)))
      userId s i d hd with h1 | ⟨_, h2⟩
    · exact ⟨d.refreshToken, h1⟩
    · exact ⟨_, h2⟩

/-- C3, an instance: a new pair for alice in the store of alice and bob. -/
theorem generateAccessAndRefreshTokens_frame_witness :
    findById demoStore 1 = some alice ∧
    ∃ pair s1, generateAccessAndRefreshTokens demoEnv demoStore 1 = (.ok pair, s1) ∧
      findById s1 1 = some { alice with refreshToken := some pair.refreshToken } ∧
      (∀ id, id ≠ 1 → findById s1 id = findById demoStore id) ∧
      s1.length = demoStore.length ∧
      (∀ (i : Nat) (d : User), demoStore[i]? = some d → d._id ≠ 1 → s1[i]? = some d) ∧
      (∀ (i : Nat) (d : User), demoStore[i]? = some d →
        ∃ rt, s1[i]? = some { d with refreshToken := rt }) :=
  ⟨by decide, generateAccessAndRefreshTokens_frame demoEnv demoStore 1 alice (by decide)⟩

/-! ## Rotation for a user without a stored refresh token -/

theorem loggedOut_updateOne_ne (f : User → User) (hf : ∀ d, (f d)._id = d._id)
    (userId id : ObjectId) (s : Store) (hne : userId ≠ id) (h : loggedOut userId s) :
    loggedOut userId (updateOne f id s) := by
  intro d hd
  rw [findById_updateOne f hf, if_neg hne] at hd
  exact h d hd

theorem loggedOut_append (userId : ObjectId) (s : Store) (n : User)
    (hn : n.refreshToken = none) (h : loggedOut userId s) : loggedOut userId (s ++ [n]) := by
  intro d hd
  unfold findById at hd
  rw [List.find?_append] at hd
  rcases hf : List.find? (fun u => decide (u._id = userId)) s with _ | u
  · rw [hf] at hd
    by_cases hnid : n._id = userId
    · simp [hnid] at hd
      rw [← hd]; exact hn
    · simp [hnid] at hd
  · rw [hf] at hd
    simp at hd
    rw [← hd]
    exact h u hf

theorem create_ok (env : Env) (s s1 : Store) (n : User)
    (fullName lastName avatar coverImage email password username : String)
    (h : create env s fullName lastName avatar coverImage email password username
      = (.ok n, s1)) : s1 = s ++ [n] ∧ n.refreshToken = none := by
  unfold create at h
  split at h
  · simp at h
  · simp only [Prod.mk.injEq, Except.ok.injEq] at h
    obtain ⟨h1, h2⟩ := h
    subst h1
    exact ⟨h2.symm, rfl⟩

theorem create_error (env : Env) (s s1 : Store) (e : Thrown)
    (fullName lastName avatar coverImage email password username : String)
    (h : create env s fullName lastName avatar coverImage email password username
      = (.error e, s1)) : s1 = s := by
  unfold create at h
  split at h
  · simp only [Prod.mk.injEq] at h
    exact h.2.symm
  · simp at h

theorem registerUser_store (env : Env) (s : Store) (req : Request) :
    (registerUser env s req).2 = s ∨
    ∃ n, n.refreshToken = none ∧ (registerUser env s req).2 = s ++ [n] := by
  unfold registerUser
  simp only
  repeat' split
  all_goals first
    | exact Or.inl rfl
    | exact Or.inl (create_error _ _ _ _ _ _ _ _ _ _ _ (by assumption))
    | exact Or.inr ⟨_, (create_ok _ _ _ _ _ _ _ _ _ _ _ (by assumption)).2,
        (create_ok _ _ _ _ _ _ _ _ _ _ _ (by assumption)).1⟩

theorem findById_of_mem (s : Store) (u : User) (h : u ∈ s) :
    ∃ v, findById s u._id = some v := by
  unfold findById
  rcases hf : List.find? (fun v => decide (v._id = u._id)) s with _ | v
  · rw [List.find?_eq_none] at hf
    exact absurd (by simp) (hf u h)
  · exact ⟨v, hf⟩

theorem findOneByEmailOrUsername_mem (env : Env) (s : Store) (email username : Option String)
    (u : User) (h : findOneByEmailOrUsername env s email username = some u) : u ∈ s :=
  List.mem_of_find?_eq_some h

theorem loginUser_cases (env : Env) (s : Store) (req : Request) :
    (loginUser env s req).2 = s ∨
    ∃ id rt res su a r,
      loginUser env s req = (.ok res, updateOne (setRefreshToken (some rt)) id s) ∧
      res.data = .login su a r ∧ su._id = id := by
  unfold loginUser
  simp only
  split
  · exact Or.inl rfl
  · split
    · exact Or.inl rfl
    · rename_i user hfind
      split
      · exact Or.inl rfl
      · exact Or.inl rfl
      · obtain ⟨v, hv⟩ := findById_of_mem s user (findOneByEmailOrUsername_mem _ _ _ _ _ hfind)
        have hid : v._id = user._id := findById_id hv
        right
        rw [generateAccessAndRefreshTokens_eq env s user._id v hv]
        simp only [findById_updateOne (setRefreshToken _) (fun _ => rfl), if_pos, hv,
          Option.map_some']
        exact ⟨user._id, _, _, _, _, _, rfl, rfl, hid⟩

theorem loginUser_loggedOut (env : Env) (s : Store) (req : Request) (userId : ObjectId)
    (h : loggedOut userId s) (hno : loginsUser env s userId (.login req) = false) :
    loggedOut userId (loginUser env s req).2 := by
  rcases loginUser_cases env s req with h1 | ⟨id, rt, res, su, a, r, h1, h2, h3⟩
  · rw [h1]; exact h
  · simp only [loginsUser, h1, h2, decide_eq_false_iff_not] at hno
    rw [h1]
    exact loggedOut_updateOne_ne (setRefreshToken _) (fun _ => rfl) _ _ _
      (fun e => hno (by rw [h3, e])) h

theorem refreshAccessTokenTry_cases (env : Env) (s : Store) (token : String) :
    (refreshAccessTokenTry env s token).2 = s ∨
    ∃ user, findById s user._id = some user ∧ user.refreshToken = some token ∧
      (refreshAccessTokenTry env s token).2 =
        updateOne (setRefreshToken (some (env.generateRefreshToken user))) user._id s := by
  unfold refreshAccessTokenTry
  split
  · exact Or.inl rfl
  · split
    · exact Or.inl rfl
    · rename_i user hu
      split
      · exact Or.inl rfl
      · rename_i ht
        right
        refine ⟨user, findById_self hu, by simpa using ht, ?_⟩
        rw [generateAccessAndRefreshTokens_eq env s user._id user (findById_self hu)]

theorem refreshAccessToken_loggedOut (env : Env) (s : Store) (req : Request)
    (userId : ObjectId) (h : loggedOut userId s) :
    loggedOut userId (refreshAccessToken env s req).2 := by
  unfold refreshAccessToken
  rcases htok : incomingRefreshToken req with _ | token
  · exact h
  · have hc := refreshAccessTokenTry_cases env s token
    rcases htry : refreshAccessTokenTry env s token with ⟨out, s1⟩
    rw [htry] at hc
    simp only at hc
    have hs1 : loggedOut userId s1 := by
      rcases hc with h1 | ⟨user, hu, ht, h1⟩
      · rw [h1]; exact h
      · rw [h1]
        refine loggedOut_updateOne_ne (setRefreshToken _) (fun _ => rfl) _ _ _ ?_ h
        intro e
        rw [← e] at hu
        have := h user hu
        rw [this] at ht
        exact Option.noConfusion ht
    cases out <;> simp only [htry] <;> exact hs1

theorem logoutUser_store (s : Store) (req : Request) : (logoutUser s req).2 = s := by
  unfold logoutUser
  split
  · rfl
  · exact updateOne_of_fixed _ (fun _ => rfl) _ _

theorem logoutUser_loggedOut (s : Store) (req : Request) (userId : ObjectId)
    (h : loggedOut userId s) : loggedOut userId (logoutUser s req).2 := by
  rw [logoutUser_store]; exact h

theorem registerUser_loggedOut (env : Env) (s : Store) (req : Request) (userId : ObjectId)
    (h : loggedOut userId s) : loggedOut userId (registerUser env s req).2 := by
  rcases registerUser_store env s req with h1 | ⟨n, hn, h1⟩
  · rw [h1]; exact h
  · rw [h1]; exact loggedOut_append _ _ _ hn h

theorem route_loggedOut (env : Env) (s : Store) (c : Call) (userId : ObjectId)
    (h : loggedOut userId s) (hno : loginsUser env s userId c = false) :
    loggedOut userId (route env s c).2 := by
  cases c with
  | register req => exact registerUser_loggedOut env s req userId h
  | login req => exact loginUser_loggedOut env s req userId h hno
  | logout req =>
    simp only [route]
    split
    · exact h
    · exact logoutUser_loggedOut _ _ _ h
  | refreshToken req => exact refreshAccessToken_loggedOut env s req userId h

theorem run_loggedOut (env : Env) (userId : ObjectId) (calls : List Call) (s : Store)
    (h : loggedOut userId s) (hno : noLoginOf env userId s calls) :
    loggedOut userId (run env s calls) := by
  induction calls generalizing s with
  | nil => exact h
  | cons c cs ih =>
    exact ih _ (route_loggedOut env s c userId h hno.1) hno.2

theorem refreshAccessToken_of_loggedOut (env : Env) (s : Store) (req : Request)
    (userId : ObjectId) (t : String) (h : loggedOut userId s)
    (ht : ∀ p, env.jwtVerify t env.REFRESH_TOKEN_SECRET = .ok p → p._id = userId)
    (hreq : incomingRefreshToken req = some t) :
    errorStatus (refreshAccessToken env s req).1 = some 401 := by
  apply refreshAccessToken_error_status
  intro hok
  obtain ⟨token, payload, user, htok, hv, hu, hst⟩ := (refreshAccessToken_ok_iff env s req).1 hok
  rw [hreq] at htok
  have e : t = token := Option.some.inj htok
  subst e
  rw [ht payload hv] at hu
  have := h user hu
  rw [this] at hst
  exact Option.noConfusion hst

/-! ## Where the code departs from the specification -/

theorem refreshAccessTokenTry_response (env : Env) (s : Store) (token : String)
    (res : Response) (h : (refreshAccessTokenTry env s token).1 = .ok res) :
    res.cookie "refreshToken" = some none ∧
    ∃ a, res.data = .tokens (some a) none ∧ res.cookie "accessToken" = some (some a) := by
  unfold refreshAccessTokenTry at h
  split at h
  · simp at h
  · split at h
    · simp at h
    · rename_i user hu
      split at h
      · simp at h
      · rw [generateAccessAndRefreshTokens_eq env s user._id user (findById_self hu)] at h
        simp only [Except.ok.injEq] at h
        subst h
        exact ⟨rfl, _, rfl, rfl⟩

theorem refreshAccessToken_response (env : Env) (s : Store) (req : Request) (res : Response)
    (h : (refreshAccessToken env s req).1 = .ok res) :
    res.cookie "refreshToken" = some none ∧
    ∃ a, res.data = .tokens (some a) none ∧ res.cookie "accessToken" = some (some a) := by
  unfold refreshAccessToken at h
  rcases htok : incomingRefreshToken req with _ | token
  · simp [htok] at h
  · rcases htry : refreshAccessTokenTry env s token with ⟨out, s1⟩
    simp only [htok, htry] at h
    cases out with
    | error e => simp at h
    | ok r =>
      simp only [Except.ok.injEq] at h
      subst h
      exact refreshAccessTokenTry_response env s token r (by rw [htry])

theorem verifyJWT_error_status (env : Env) (s : Store) (req : Request) (e : Thrown)
    (h : verifyJWT env s req = .error e) : ∃ m, e = .APIerror 401 m := by
  unfold verifyJWT at h
  split at h
  · simp at h
  · simp only [Except.error.injEq] at h
    exact ⟨_, h.symm⟩

theorem verifyJWT_unknown_user (env : Env) (s : Store) (req : Request) (token : String)
    (payload : JwtPayload) (hc : req.cookies.accessToken = some token) (ht : token ≠ "")
    (hv : env.jwtVerify token env.ACCESS_TOKEN_SECRET = .ok payload)
    (hu : findById s payload._id = none) :
    verifyJWT env s req = .error (.APIerror 401 "User not found") := by
  have hb : bearerToken req = .ok (some token) := by
    simp [bearerToken, hc, truthy, ht]
  have htry : verifyJWTTry env s req = .error (.APIerror 404 "User not found") := by
    simp [verifyJWTTry, hb, ht, hv, hu]
  simp [verifyJWT, htry, messageOr, Thrown.message]

theorem verifyJWT_without_cookie (env : Env) (s : Store) (req : Request)
    (hc : truthy req.cookies.accessToken = false) :
    ∃ m, verifyJWT env s req = .error (.APIerror 401 m) := by
  have htry : ∃ e, verifyJWTTry env s req = .error e := by
    unfold verifyJWTTry bearerToken
    rw [hc]
    rcases req.headers with _ | hs
    · exact ⟨_, rfl⟩
    · exact ⟨_, rfl⟩
  obtain ⟨e, he⟩ := htry
  exact ⟨messageOr e "Invalid or expired token", by simp [verifyJWT, he]⟩

/-- C2 at a refresh that succeeds: the store receives the new refresh token `R.alice++`,
but the handler reads the key `newRefreshToken` of the pair, which the pair does not
have, so the `refreshToken` cookie and the body carry `undefined`. The access token of
the body is the one of the cookie. -/
theorem refreshAccessToken_returns_undefined_refresh_token :
    (refreshAccessToken demoEnv demoStore (refreshRequest "R.alice+")).1 =
      .ok { statusCode := 200,
            cookies := [("accessToken", some "A.alice"), ("refreshToken", none)],
            clearedCookies := [],
            data := .tokens (some "A.alice") none,
            message := "Tokens refreshed successfully" } ∧
    (refreshAccessToken demoEnv demoStore (refreshRequest "R.alice+")).2 =
      [{ alice with refreshToken := some "R.alice++" }, bob] ∧
    (generateAccessAndRefreshTokens demoEnv demoStore 1).1 =
      .ok { accessToken := "A.alice", refreshToken := "R.alice++" } :=
  ⟨rfl, rfl, rfl⟩

/-- C4 at the logout of alice, whose stored refresh token is `R.alice+`: the update
`$set: { refreshToken: undefined }` assigns nothing, the store after the logout route is
the store before it, and the refresh request that presents `R.alice+` afterwards is
answered with status 200 and a rotated token instead of status 401. -/
theorem logoutUser_keeps_refresh_token :
    findById demoStore 1 = some alice ∧ alice.refreshToken = some "R.alice+" ∧
    verifyJWT demoEnv demoStore (cookieRequest "A.alice") = .ok aliceLogoutRequest ∧
    route demoEnv demoStore (.logout (cookieRequest "A.alice")) =
      (.ok { statusCode := 200, cookies := [],
             clearedCookies := ["accessToken", "refreshToken"],
             data := .empty, message := "User logged out successfully" }, demoStore) ∧
    (refreshAccessToken demoEnv (route demoEnv demoStore (.logout (cookieRequest "A.alice"))).2
        (refreshRequest "R.alice+")).1 =
      .ok { statusCode := 200,
            cookies := [("accessToken", some "A.alice"), ("refreshToken", none)],
            clearedCookies := [],
            data := .tokens (some "A.alice") none,
            message := "Tokens refreshed successfully" } ∧
    errorStatus (refreshAccessToken demoEnv
        (route demoEnv demoStore (.logout (cookieRequest "A.alice"))).2
        (refreshRequest "R.alice+")).1 = none :=
  ⟨rfl, rfl, rfl, rfl, rfl, rfl⟩

/-- C5 at the access token `A.ghost`, which is valid and names the id 9 of no user:
the `APIerror` with status 404 is thrown inside the `try` block, and what leaves
`verifyJWT` is the `APIerror` with status 401 of the `catch`. -/
theorem verifyJWT_unknown_user_status :
    demoEnv.jwtVerify "A.ghost" demoEnv.ACCESS_TOKEN_SECRET = .ok { _id := 9 } ∧
    findById demoStore 9 = none ∧
    verifyJWTTry demoEnv demoStore (cookieRequest "A.ghost")
      = .error (.APIerror 404 "User not found") ∧
    verifyJWT demoEnv demoStore (cookieRequest "A.ghost")
      = .error (.APIerror 401 "User not found") :=
  ⟨rfl, rfl, rfl, rfl⟩

/-- C6 at a request without cookie and with the header `Authorization: Bearer A.alice`,
where `A.alice` is a valid access token of alice: the optional call of the header
object throws, and `verifyJWT` rejects the request with status 401. The same token in
the cookie is accepted and alice is attached, also when a header with the token of bob
is present. -/
theorem verifyJWT_rejects_authorization_header :
    demoEnv.jwtVerify "A.alice" demoEnv.ACCESS_TOKEN_SECRET = .ok { _id := 1 } ∧
    findById demoStore 1 = some alice ∧
    (headerRequest "Bearer A.alice").cookies.accessToken = none ∧
    verifyJWT demoEnv demoStore (headerRequest "Bearer A.alice")
      = .error (.APIerror 401 "req.headers is not a function") ∧
    verifyJWT demoEnv demoStore (cookieRequest "A.alice")
      = .ok { cookieRequest "A.alice" with user := some (select alice) } ∧
    verifyJWT demoEnv demoStore
        { cookieRequest "A.alice" with headers := some [("authorization", "Bearer A.bob")] }
      = .ok { cookieRequest "A.alice" with
              headers := some [("authorization", "Bearer A.bob")],
              user := some (select alice) } :=
  ⟨rfl, rfl, rfl, rfl, rfl, rfl⟩

/-- C7 at a registration of carol whose `req.files` is present without an `avatar`
key: indexing the undefined `avatar` throws a `TypeError`, not the `APIerror` with
status 400; no user is created. Without `req.files` the status is 400. -/
theorem registerUser_files_without_avatar :
    registerUser demoEnv demoStore
        { carolRegisterRequest with files := some { avatar := none, coverImage := none } }
      = (.error (.TypeError "Cannot read properties of undefined (reading 0)"), demoStore) ∧
    errorStatus (registerUser demoEnv demoStore
        { carolRegisterRequest with files := some { avatar := none, coverImage := none } }).1
      = none ∧
    registerUser demoEnv demoStore { carolRegisterRequest with files := none }
      = (.error (.APIerror 400 "Avatar is required"), demoStore) :=
  ⟨rfl, rfl, rfl⟩

/-- C8 at a registration whose body has no `username`, the other fields not blank:
`trim` on the undefined field throws a `TypeError`, not the `APIerror` with status 400;
the store is unchanged. With a blank `username` the status is 400. -/
theorem registerUser_absent_field :
    registerUser demoEnv demoStore
        (registerRequest (some "Carol") none (some "Danvers") (some "carol@example.com")
          (some "higherfurtherfaster") (some avatarOnly))
      = (.error (.TypeError "Cannot read properties of undefined (reading trim)"),
          demoStore) ∧
    errorStatus (registerUser demoEnv demoStore
        (registerRequest (some "Carol") none (some "Danvers") (some "carol@example.com")
          (some "higherfurtherfaster") (some avatarOnly))).1 = none ∧
    registerUser demoEnv demoStore
        (registerRequest (some "Carol") (some "  ") (some "Danvers") (some "carol@example.com")
          (some "higherfurtherfaster") (some avatarOnly))
      = (.error (.APIerror 400 "All fields are required"), demoStore) :=
  ⟨rfl, rfl, rfl⟩

/-! ## `registerUser` and the uniqueness of identities -/

theorem someFieldBlank_of_all (fields : List (Option String))
    (h : fields.all (fun field => match field with
      | some v => !trimIsEmpty v
      | none => false) = true) :
    someFieldBlank fields = .ok false := by
  induction fields with
  | nil => rfl
  | cons f rest ih =>
    simp only [List.all_cons, Bool.and_eq_true] at h
    cases f with
    | none => simp at h
    | some v =>
      have hv : trimIsEmpty v = false := by simpa using h.1
      simp [someFieldBlank, hv, ih h.2]

theorem findOneByEmailOrUsername_of_taken (env : Env) (s : Store) (req : Request)
    (h : identityTaken env s req) :
    ∃ u, findOneByEmailOrUsername env s req.body.email req.body.username = some u := by
  obtain ⟨u, hu, hm⟩ := h
  rcases hf : findOneByEmailOrUsername env s req.body.email req.body.username with _ | v
  · unfold findOneByEmailOrUsername at hf
    rw [List.find?_eq_none] at hf
    have := hf u hu
    simp only [castUsername, Bool.or_eq_true, decide_eq_true_eq] at this
    exact absurd hm this
  · exact ⟨v, rfl⟩

theorem registerUser_conflict (env : Env) (s : Store) (req : Request)
    (hv : requiredFieldsPresent req = true) (ht : identityTaken env s req) :
    registerUser env s req = (.error (.APIerror 409 "User already exists"), s) := by
  have h1 := someFieldBlank_of_all _ hv
  obtain ⟨u, hu⟩ := findOneByEmailOrUsername_of_taken env s req ht
  simp only [registerUser, h1, hu]

theorem create_fresh (env : Env) (s s1 : Store) (n : User)
    (fullName lastName avatar coverImage email password username : String)
    (emailField usernameField : Option String)
    (hfind : findOneByEmailOrUsername env s emailField usernameField = none)
    (he : emailField = some email) (hu : usernameField = some username)
    (hc : create env s fullName lastName avatar coverImage email password
      (env.toLowerCase username) = (.ok n, s1)) :
    s1 = s ++ [n] ∧ ∀ u ∈ s, u.email ≠ n.email ∧ u.username ≠ n.username := by
  subst he hu
  unfold create at hc
  split at hc
  · simp at hc
  · simp only [Prod.mk.injEq, Except.ok.injEq] at hc
    obtain ⟨h1, h2⟩ := hc
    subst h1
    refine ⟨h2.symm, ?_⟩
    intro u hmem
    unfold findOneByEmailOrUsername at hfind
    rw [List.find?_eq_none] at hfind
    have := hfind u hmem
    simp only [castUsername, Option.map_some', Option.some.injEq, Bool.or_eq_true,
      decide_eq_true_eq, not_or] at this
    exact this

theorem registerUser_store_fresh (env : Env) (s : Store) (req : Request) :
    (registerUser env s req).2 = s ∨
    ∃ n, (registerUser env s req).2 = s ++ [n] ∧
      ∀ u ∈ s, u.email ≠ n.email ∧ u.username ≠ n.username := by
  unfold registerUser
  simp only
  repeat' split
  all_goals first
    | exact Or.inl rfl
    | exact Or.inl (create_error _ _ _ _ _ _ _ _ _ _ _ (by assumption))
    | (have h := create_fresh _ _ _ _ _ _ _ _ _ _ _ _ _ (by assumption) (by assumption)
        (by assumption) (by assumption)
       exact Or.inr ⟨_, h.1, h.2⟩)

theorem uniqueIdentities_append (s : Store) (n : User) (hs : uniqueIdentities s)
    (hn : ∀ u ∈ s, u.email ≠ n.email ∧ u.username ≠ n.username) :
    uniqueIdentities (s ++ [n]) := by
  unfold uniqueIdentities at hs ⊢
  rw [List.pairwise_append]
  refine ⟨hs, List.pairwise_singleton _ _, ?_⟩
  intro a ha b hb
  simp only [List.mem_singleton] at hb
  subst hb
  exact hn a ha

/-- C9, as amended. In a store where no two users share an email or a username,
`registerUser` leaves a store where no two users share an email or a username, for
every request; and a request whose five required fields are present and not blank and
whose email or lower-case username is taken throws the `APIerror` with status 409 and
leaves the store as it is. -/
theorem registerUser_unique_identities (env : Env) (s : Store) (req : Request)
    (hs : uniqueIdentities s) :
    uniqueIdentities (registerUser env s req).2 ∧
    (requiredFieldsPresent req = true → identityTaken env s req →
      registerUser env s req = (.error (.APIerror 409 "User already exists"), s)) := by
  refine ⟨?_, registerUser_conflict env s req⟩
  rcases registerUser_store_fresh env s req with h | ⟨n, h, hn⟩
  · rw [h]; exact hs
  · rw [h]; exact uniqueIdentities_append s n hs hn

/-- C9, two instances of the amended statement: the registration under `Bob`, whose
lower-case username is the one of bob, is refused with status 409; the registration of
carol adds a third user and the identities stay unique. -/
theorem registerUser_unique_identities_witness :
    uniqueIdentities demoStore ∧
    requiredFieldsPresent bobRegisterRequest = true ∧
    identityTaken demoEnv demoStore bobRegisterRequest ∧
    registerUser demoEnv demoStore bobRegisterRequest
      = (.error (.APIerror 409 "User already exists"), demoStore) ∧
    (registerUser demoEnv demoStore carolRegisterRequest).2.map (fun u => u.username)
      = ["alice", "bob", "carol"] ∧
    uniqueIdentities (registerUser demoEnv demoStore carolRegisterRequest).2 :=
  ⟨by unfold uniqueIdentities; decide, rfl,
    ⟨bob, by simp [demoStore], Or.inr rfl⟩,
    (registerUser_unique_identities demoEnv demoStore bobRegisterRequest
      (by unfold uniqueIdentities; decide)).2 rfl ⟨bob, by simp [demoStore], Or.inr rfl⟩,
    rfl,
    (registerUser_unique_identities demoEnv demoStore carolRegisterRequest
      (by unfold uniqueIdentities; decide)).1⟩

/-- C9, as stated, fails for a request that does not pass the validation of the
fields: the email of the request is the email of alice, the `fullName` is empty, and
the handler throws the `APIerror` with status 400 before it looks the identity up. -/
theorem registerUser_taken_email_blank_name :
    identityTaken demoEnv demoStore blankNameRequest ∧
    registerUser demoEnv demoStore blankNameRequest
      = (.error (.APIerror 400 "All fields are required"), demoStore) ∧
    errorStatus (registerUser demoEnv demoStore blankNameRequest).1 ≠ some 409 :=
  ⟨⟨alice, by simp [demoStore], Or.inl rfl⟩, rfl, by decide⟩

/-! ## `extractPublicIdFromUrl` -/

theorem cloudinaryUrl_data (cloudName digits publicId ext : String) :
    (cloudinaryUrl cloudName digits publicId ext).data =
      "https:".data ++ '/' :: ([] ++ '/' :: ("res.cloudinary.com".data ++ '/' ::
        (cloudName.data ++ '/' :: ("image".data ++ '/' :: ("upload".data ++ '/' ::
          ('v' :: (digits.data ++ '/' :: (publicId.data ++ '.' :: ext.data)))))))) := by
  simp [cloudinaryUrl, String.data_append]

theorem split_cloudinaryUrl (cloudName digits publicId ext : String) :
    split '/' (cloudinaryUrl cloudName digits publicId ext).data =
      ["https:".data, [], "res.cloudinary.com".data] ++ (split '/' cloudName.data ++
        ("image".data :: "upload".data ::
          split '/' ('v' :: (digits.data ++ '/' :: (publicId.data ++ '.' :: ext.data))))) := by
  have h1 : split '/' "https:".data = ["https:".data] := by decide
  have h2 : split '/' "res.cloudinary.com".data = ["res.cloudinary.com".data] := by decide
  have h3 : split '/' "image".data = ["image".data] := by decide
  have h4 : split '/' "upload".data = ["upload".data] := by decide
  have h5 : split '/' ([] : List Char) = [[]] := by decide
  rw [cloudinaryUrl_data]
  simp only [split_append_sep, h1, h2, h3, h4, h5]
  simp

/-- C10, as amended. For a URL of the documented format whose cloud name has no
segment equal to `upload` and whose extension is not empty (and has no `/` and no `.`),
`extractPublicIdFromUrl` returns the public id; it returns `null` for the empty URL and
for a URL without a segment equal to `upload`. -/
theorem extractPublicIdFromUrl_documented_format :
    (∀ cloudName digits publicId ext : String,
      "upload".data ∉ split '/' cloudName.data →
      digits ≠ "" → (∀ c ∈ digits.data, c.isDigit = true) →
      ext ≠ "" → (∀ c ∈ ext.data, c ≠ '/' ∧ c ≠ '.') →
      extractPublicIdFromUrl (cloudinaryUrl cloudName digits publicId ext) = some publicId) ∧
    extractPublicIdFromUrl "" = none ∧
    (∀ url : String, "upload".data ∉ split '/' url.data →
      extractPublicIdFromUrl url = none) := by
  refine ⟨?_, by decide, ?_⟩
  · intro cloudName digits publicId ext hcloud hd0 hd he0 he
    have hd0' : digits.data ≠ [] := fun e => hd0 (String.ext e)
    have he0' : ext.data ≠ [] := fun e => he0 (String.ext e)
    have hne : cloudinaryUrl cloudName digits publicId ext ≠ "" := by
      intro e
      have := congrArg String.data e
      rw [cloudinaryUrl_data] at this
      simp at this
    have hfirst : "upload".data ∉ ["https:".data, [], "res.cloudinary.com".data] := by decide
    have himage : "image".data ≠ "upload".data := by decide
    have hidx : indexOf (split '/' (cloudinaryUrl cloudName digits publicId ext).data)
        "upload".data = ((3 + (split '/' cloudName.data).length + 1 : Nat) : Int) := by
      rw [split_cloudinaryUrl, indexOf, indexOfFrom_append _ _ _ _ hfirst,
        indexOfFrom_append _ _ _ _ hcloud]
      simp [indexOfFrom, himage]
    have hslice : slice (split '/' (cloudinaryUrl cloudName digits publicId ext).data)
        (((3 + (split '/' cloudName.data).length + 1 : Nat) : Int) + 1) =
        split '/' ('v' :: (digits.data ++ '/' :: (publicId.data ++ '.' :: ext.data))) := by
      have e : ((((3 + (split '/' cloudName.data).length + 1 : Nat) : Int) + 1).toNat) =
          3 + ((split '/' cloudName.data).length + 2) := by omega
      rw [slice, e, split_cloudinaryUrl, List.drop_append_eq_append_drop]
      simp
    unfold extractPublicIdFromUrl
    rw [if_neg hne]
    simp only [hidx]
    rw [if_neg (by omega), hslice, join_split, removeVersion_append _ _ hd0' hd,
      removeExtension_append _ _ he0' he]
  · intro url hurl
    unfold extractPublicIdFromUrl
    split
    · rfl
    · simp [indexOf, indexOfFrom_of_not_mem _ _ _ hurl]

/-- C10, a witness of the amended statement: the URL of the source comment. -/
theorem extractPublicIdFromUrl_documented_format_witness :
    extractPublicIdFromUrl (cloudinaryUrl "cloud_name" "1234567890" "public_id" "extension")
      = some "public_id" :=
  extractPublicIdFromUrl_documented_format.1 "cloud_name" "1234567890" "public_id" "extension"
    (by decide) (by decide) (by decide) (by decide) (by decide)

/-- C10, as stated, fails for the cloud name `upload`: the first segment equal to
`upload` is the cloud name, and the result is not the public id `sample`. It also fails
for the empty extension, where the final `.` stays. -/
theorem extractPublicIdFromUrl_cloud_named_upload :
    extractPublicIdFromUrl (cloudinaryUrl "upload" "1234567890" "sample" "jpg")
        = some "image/upload/v1234567890/sample" ∧
      extractPublicIdFromUrl (cloudinaryUrl "upload" "1234567890" "sample" "jpg")
        ≠ some "sample" ∧
      extractPublicIdFromUrl (cloudinaryUrl "demo" "1234567890" "sample" "")
        = some "sample." := by
  decide

end VideoUserBackend
